import Mathlib

/-!
# Canvas Grading Hub — verification of the submission pipeline

Shallow embedding of the data-processing pipeline of `src/latest.js`
(Canvas Grading Hub, version 2.1): settings loading (`getSettings`),
the Canvas fetch helper (`canvasFetch_`), the recent-submissions
aggregator (`fetchCanvasSubmissions_` and its helpers), and the
missing-submissions resolver (`appendMissingForCourse_`,
`startMissingSubmissions`).

Conventions of the embedding:
* Timestamps are epoch milliseconds (`Int`); a JS `Date` built from a
  submission's `submitted_at` string is modelled by the parsed `Int`
  directly, and an absent / null `submitted_at` by `none`.
* Network effects are an explicit environment (`CanvasEnv`): each REST
  endpoint is a function from its path parameters to
  `Except FetchError (Option payload)` — `Except.error` models a thrown
  error from `canvasFetch_`, `Except.ok none` models the `null` that
  `canvasFetch_` returns on an empty 2xx body (callers coalesce it with
  `|| []`).
* Spreadsheet writes are presentation: functions return the structured
  rows the source would write, in order, instead of mutating a sheet.
* Google-Apps-Script UI interactions in `startMissingSubmissions`
  (toasts, the continue/cancel alert, wall-clock reads) are modelled by
  a `CheckpointEnv` oracle indexed by the loop position.
-/

namespace CanvasHub

/-! ## Data model -/

/-- Validated configuration produced by `getSettings`. -/
structure Settings where
  baseUrl : String
  apiToken : String
  courseIds : List String
  hoursBack : Int
  runTime : String
  showOnlyUngraded : Bool
  highlightLate : Bool
  deriving Repr, DecidableEq

/-- Errors thrown by `canvasFetch_`, classified per the spec's taxonomy:
`auth` for HTTP 401/403, `upstream` for any other non-2xx status
(carrying the status and the response body truncated to 500 chars),
`decode` for malformed JSON with a 2xx status. -/
inductive FetchError where
  | auth (code : Nat)
  | upstream (code : Nat) (bodyTrunc : String)
  | decode
  deriving Repr, DecidableEq

/-- The `user` object included with `include[]=user` submissions. -/
structure SubUser where
  name : Option String
  sortable_name : Option String
  deriving Repr, DecidableEq

/-- A Canvas submission as consumed by the pipeline. `submitted_at` is
`none` when the JSON field is null/absent (falsy in the source). -/
structure Submission where
  submitted_at : Option Int
  workflow_state : String
  user_id : Int
  late : Bool
  user : Option SubUser
  deriving Repr, DecidableEq

/-- A Canvas assignment; `created_at` is `none` when absent. -/
structure Assignment where
  id : Int
  name : String
  created_at : Option Int
  deriving Repr, DecidableEq

/-- A roster user as returned by the `/users` endpoint. -/
structure RosterUser where
  id : Int
  name : Option String
  sortable_name : Option String
  deriving Repr, DecidableEq

/-- Roster entry produced by `getCourseStudents_`. -/
structure Student where
  id : Int
  name : String
  deriving Repr, DecidableEq

/-- The course object fetched by `getCourseName_`. -/
structure CourseInfo where
  name : Option String
  deriving Repr, DecidableEq

/-- A row of the Day-1 dashboard (`RecentSubmissionRecord`). -/
structure RecentRecord where
  studentName : String
  courseName : String
  assignmentName : String
  submittedDate : Int
  isLate : Bool
  isGraded : Bool
  speedGraderUrl : String
  deriving Repr, DecidableEq

/-- The network environment: one field per REST endpoint the pipeline
calls. `Except.error` = `canvasFetch_` threw; `Except.ok none` = empty
2xx body (`canvasFetch_` returned `null`). -/
structure CanvasEnv where
  course : String → Except FetchError (Option CourseInfo)
  assignments : String → Except FetchError (Option (List Assignment))
  subsWithUser : String → Int → Except FetchError (Option (List Submission))
  rawSubs : String → Int → Except FetchError (Option (List Submission))
  students : String → Except FetchError (Option (List RosterUser))

/-! ## Settings & shared helpers -/

/-- JS `x.name || x.sortable_name || default` chains: an absent or empty
string falls through to the next alternative. -/
def orElseStr (x : Option String) (d : String) : String :=
  match x with
  | some s => if s = "" then d else s
  | none => d

/-- JS `s.startsWith(p)`, computed on the character list. -/
def jsStartsWith (s p : String) : Bool :=
  p.data.isPrefixOf s.data

/-- JS `s.endsWith(p)`, computed on the character list. -/
def jsEndsWith (s p : String) : Bool :=
  p.data.isSuffixOf s.data

/-- JS `s.trim()` (whitespace restricted to the ASCII class the
settings values can contain). -/
def jsTrim (s : String) : String :=
  ⟨((s.data.dropWhile Char.isWhitespace).reverse.dropWhile Char.isWhitespace).reverse⟩

/-- JS `s.toLowerCase()` on the ASCII range the settings values use. -/
def jsToLower (s : String) : String :=
  ⟨s.data.map Char.toLower⟩

/-- Tail of JS `s.split(',')`: accumulate the current field, cut at
every comma. -/
def splitCommaAux : List Char → List Char → List String
  | [], acc => [⟨acc.reverse⟩]
  | c :: cs, acc =>
      if c = ',' then ⟨acc.reverse⟩ :: splitCommaAux cs []
      else splitCommaAux cs (c :: acc)

/-- JS `s.split(',')` (a single-character separator; `''.split(',')`
is `['']`). -/
def jsSplitComma (s : String) : List String :=
  splitCommaAux s.data []

/-- JS `s.slice(0, n)`, computed on the character list. -/
def jsSlice (s : String) (n : Nat) : String :=
  ⟨s.data.take n⟩

/-- `normalizeYesNo_(val)` from the source: trims, lowercases, accepts
`yes`/`y`/`true`. -/
def normalizeYesNo_ (val : String) : Bool :=
  let s := jsToLower (jsTrim val)
  s = "yes" || s = "y" || s = "true"

/-- Decimal value of a digit list. -/
def digitsToNat (cs : List Char) : Nat :=
  cs.foldl (fun acc c => acc * 10 + (c.toNat - ('0').toNat)) 0

/-- JS `parseInt(s, 10)`: skip leading whitespace, optional sign, then
the longest digit prefix; `none` models `NaN` (no digits). -/
def jsParseInt (s : String) : Option Int :=
  let t := jsTrim s
  let core : Bool × String :=
    if jsStartsWith t "-" then (true, t.drop 1)
    else if jsStartsWith t "+" then (false, t.drop 1)
    else (false, t)
  let ds := core.2.toList.takeWhile Char.isDigit
  if ds.isEmpty then none
  else
    let n : Int := Int.ofNat (digitsToNat ds)
    some (if core.1 then -n else n)

/-- `parseInt(settings[..], 10) || 24`: both `NaN` and `0` (and `-0`)
are falsy, so they yield the default 24. -/
def jsParseIntOr24 (v : String) : Int :=
  match jsParseInt v with
  | some n => if n = 0 then 24 else n
  | none => 24

/-- `.replace(/^https?:\/\//, '')`. -/
def stripScheme (s : String) : String :=
  if jsStartsWith s "https://" then s.drop 8
  else if jsStartsWith s "http://" then s.drop 7
  else s

/-- `.replace(/\/$/, '')`. -/
def stripTrailingSlash (s : String) : String :=
  if jsEndsWith s "/" then s.dropRight 1 else s

/-- `getSettings()` from the source. The Settings sheet is abstracted to
the key-value map `g` it builds (rows from index 2 on, keys and values
trimmed); an absent key reads as `""` (both `undefined` and `""` are
falsy wherever the source tests a setting). The thrown validation errors
become `Except.error` with the user-facing message prefix. -/
def getSettings (g : String → String) : Except String Settings :=
  if g "Canvas Base URL" = "" || g "Canvas Base URL" = "yourschool.instructure.com" then
    .error "Please enter your Canvas Base URL in the Settings tab (e.g. yourschool.instructure.com)."
  else if g "Canvas API Token" = "" || g "Canvas API Token" = "PASTE_YOUR_TOKEN_HERE" then
    .error "Please enter your Canvas API Token in the Settings tab."
  else if g "Course IDs (comma-separated)" = "" then
    .error "Please enter one or more Course IDs in the Settings tab (comma-separated)."
  else
    .ok {
      baseUrl := stripTrailingSlash (stripScheme (g "Canvas Base URL"))
      apiToken := g "Canvas API Token"
      courseIds :=
        ((jsSplitComma (g "Course IDs (comma-separated)")).map jsTrim).filter
          (fun s => s != "")
      hoursBack := jsParseIntOr24 (g "Hours to Look Back")
      runTime := if g "Run Time" = "" then "5:00 AM" else g "Run Time"
      showOnlyUngraded := normalizeYesNo_ (g "Show Only Ungraded?")
      highlightLate := normalizeYesNo_ (g "Highlight Late Submissions?") }

/-! ## Paginated API client (`canvasFetch_`) -/

/-- A raw HTTP response, as seen through `UrlFetchApp` with
`muteHttpExceptions`: status code and body text. -/
structure HttpResponse where
  code : Nat
  body : String
  deriving Repr, DecidableEq

/-- `url.startsWith('http') ? url : 'https://' + settings.baseUrl + url`. -/
def fullUrlOf (settings : Settings) (url : String) : String :=
  if jsStartsWith url "http" then url else "https://" ++ settings.baseUrl ++ url

/-- `canvasFetch_(settings, url, options, contextLabel)`. The transport
is the function `http` from full URL to response; `parse` models the
host `JSON.parse` (`none` = it would throw). Result `Except.ok none`
models returning `null` on an empty body. The `contextLabel` only
decorates thrown messages and is dropped. -/
def canvasFetch_ {α : Type} (settings : Settings) (http : String → HttpResponse)
    (parse : String → Option α) (url : String) : Except FetchError (Option α) :=
  let res := http (fullUrlOf settings url)
  if res.code = 401 || res.code = 403 then
    .error (.auth res.code)
  else if res.code < 200 || 300 ≤ res.code then
    .error (.upstream res.code (jsSlice res.body 500))
  else if res.body = "" then
    .ok none
  else
    match parse res.body with
    | some v => .ok (some v)
    | none => .error .decode

/-! ## Recent-submissions aggregator -/

/-- `getCourseName_(settings, courseId)`: propagates fetch errors, else
`course && course.name ? course.name : 'Course ' + courseId`. -/
def getCourseName_ (env : CanvasEnv) (courseId : String) : Except FetchError String :=
  match env.course courseId with
  | .error e => .error e
  | .ok co =>
      .ok (match co with
        | some ci => orElseStr ci.name ("Course " ++ courseId)
        | none => "Course " ++ courseId)

/-- The `try { getCourseName_ } catch { 'Course ' + id }` fallback used
by `fetchCanvasSubmissions_`, `openMissingSubmissionsDialog` and
`appendMissingForCourse_`. -/
def courseNameOrFallback (env : CanvasEnv) (courseId : String) : String :=
  match getCourseName_ env courseId with
  | .ok n => n
  | .error _ => "Course " ++ courseId

/-- `getAssignments_(settings, courseId)`: `canvasFetch_(...) || []`,
with any thrown error caught and turned into `[]`. -/
def getAssignments_ (env : CanvasEnv) (courseId : String) : List Assignment :=
  match env.assignments courseId with
  | .ok (some l) => l
  | .ok none => []
  | .error _ => []

/-- `'https://' + baseUrl + '/courses/' + courseId +
'/gradebook/speed_grader?assignment_id=' + assignmentId +
'&student_id=' + studentId`. -/
def speedGraderUrlOf (settings : Settings) (courseId : String)
    (assignmentId studentId : Int) : String :=
  "https://" ++ settings.baseUrl ++ "/courses/" ++ courseId ++
    "/gradebook/speed_grader?assignment_id=" ++ toString assignmentId ++
    "&student_id=" ++ toString studentId

/-- `s.user ? s.user.name || s.user.sortable_name || 'Unknown Student'
: 'Unknown Student'`. -/
def studentNameOf (s : Submission) : String :=
  match s.user with
  | some u => orElseStr u.name (orElseStr u.sortable_name "Unknown Student")
  | none => "Unknown Student"

/-- The per-submission body of the `arr.forEach` loop in
`getAssignmentSubmissionsFiltered_`: `none` = the submission is skipped
by one of the three `return`s, `some` = the pushed record. -/
def processSubmission (settings : Settings) (courseId : String) (assignmentId : Int)
    (assignmentName courseName : String) (cutoff : Int) (s : Submission) :
    Option RecentRecord :=
  match s.submitted_at with
  | none => none
  | some t =>
      if s.workflow_state = "unsubmitted" then none
      else if t < cutoff then none
      else if settings.showOnlyUngraded && (s.workflow_state = "graded" : Bool) then none
      else
        some {
          studentName := studentNameOf s
          courseName := courseName
          assignmentName := assignmentName
          submittedDate := t
          isLate := s.late
          isGraded := (s.workflow_state = "graded" : Bool)
          speedGraderUrl := speedGraderUrlOf settings courseId assignmentId s.user_id }

/-- `getAssignmentSubmissionsFiltered_`: a thrown fetch error is caught
and yields `[]`; a `null` body coalesces to `[]`; otherwise the fetched
array is filtered/mapped by the loop body. -/
def getAssignmentSubmissionsFiltered_ (settings : Settings) (env : CanvasEnv)
    (courseId : String) (assignmentId : Int) (assignmentName courseName : String)
    (cutoff : Int) : List RecentRecord :=
  let arr :=
    match env.subsWithUser courseId assignmentId with
    | .ok (some l) => l
    | .ok none => []
    | .error _ => []
  arr.filterMap (processSubmission settings courseId assignmentId assignmentName courseName cutoff)

/-- `fetchCourseSubmissions_`: concatenates the filtered submissions of
every assignment of the course. The per-assignment `try/catch` never
fires in the embedding because `getAssignmentSubmissionsFiltered_`
already catches its own fetch errors internally. -/
def fetchCourseSubmissions_ (settings : Settings) (env : CanvasEnv)
    (courseId courseName : String) (cutoff : Int) : List RecentRecord :=
  (getAssignments_ env courseId).flatMap (fun asmt =>
    getAssignmentSubmissionsFiltered_ settings env courseId asmt.id asmt.name
      courseName cutoff)

/-- The comparator `(a, b) => b.submittedDate - a.submittedDate` orders
`a` before `b` exactly when `b.submittedDate ≤ a.submittedDate`. -/
def recordGe (a b : RecentRecord) : Prop :=
  b.submittedDate ≤ a.submittedDate

instance : DecidableRel recordGe :=
  fun a b => inferInstanceAs (Decidable (b.submittedDate ≤ a.submittedDate))

instance : IsTotal RecentRecord recordGe :=
  ⟨fun a b => Int.le_total b.submittedDate a.submittedDate⟩

instance : IsTrans RecentRecord recordGe :=
  ⟨fun _ _ _ h h' => le_trans h' h⟩

/-- `all.sort((a, b) => b.submittedDate - a.submittedDate)`. JS
`Array.sort` is a stable sort, and the output of a stable sort under a
total transitive comparator is unique, so it is embedded as the (stable)
insertion sort under `recordGe`. -/
def sortRecordsDesc (l : List RecentRecord) : List RecentRecord :=
  List.insertionSort recordGe l

/-- `fetchCanvasSubmissions_(settings)`: cutoff is
`Date.now() - hoursBack * 3600000`; per-course results (with fallback
course names, per-course errors caught to skip) are concatenated and
sorted descending by `submittedDate`. -/
def fetchCanvasSubmissions_ (settings : Settings) (env : CanvasEnv) (now : Int) :
    List RecentRecord :=
  let cutoff := now - settings.hoursBack * 3600000
  let all := settings.courseIds.flatMap (fun cid =>
    fetchCourseSubmissions_ settings env cid (courseNameOrFallback env cid) cutoff)
  sortRecordsDesc all

/-! ## Missing-submissions resolver -/

/-- `getCourseStudents_`: a thrown fetch error is caught and yields
`[]`; otherwise map roster users through the
`u.name || u.sortable_name || 'Unknown Student'` fallback. -/
def getCourseStudents_ (env : CanvasEnv) (courseId : String) : List Student :=
  let arr :=
    match env.students courseId with
    | .ok (some l) => l
    | .ok none => []
    | .error _ => []
  arr.map (fun u => { id := u.id, name := orElseStr u.name (orElseStr u.sortable_name "Unknown Student") })

/-- `getAssignmentSubmissionsRaw_`: unfiltered submissions, with errors
caught to `[]` and a `null` body coalesced to `[]`. -/
def getAssignmentSubmissionsRaw_ (env : CanvasEnv) (courseId : String)
    (assignmentId : Int) : List Submission :=
  match env.rawSubs courseId assignmentId with
  | .ok (some l) => l
  | .ok none => []
  | .error _ => []

/-- The user-id set built by `appendMissingForCourse_`:
`subs.filter(s => s && s.submitted_at && s.workflow_state !== 'unsubmitted').map(s => s.user_id)`
(the `s &&` null-guard is vacuous under this typing). Membership in the
JS `Set` is membership in this list. -/
def realSubmittedIds (subs : List Submission) : List Int :=
  (subs.filter (fun s => s.submitted_at.isSome && (s.workflow_state != "unsubmitted"))).map
    (fun s => s.user_id)

/-- `students.filter(stu => !submittedIds.has(stu.id))`. -/
def missingForAssignment (students : List Student) (subs : List Submission) :
    List Student :=
  students.filter (fun stu => !((realSubmittedIds subs).contains stu.id))

/-- The complement subset of the roster: students whose id has a real
submission (used to state the spec's partition `missing ∪ submitted =
roster`, `missing ∩ submitted = ∅`). -/
def submittedRoster (students : List Student) (subs : List Submission) :
    List Student :=
  students.filter (fun stu => (realSubmittedIds subs).contains stu.id)

/-- The sort key comparison of
`assignments.sort((a,b) => bd - ad)` with
`xd = x.created_at ? new Date(x.created_at).getTime() : -Infinity`:
`a` sorts before `b` iff `a`'s key is ≥ `b`'s, an absent `created_at`
being `-Infinity`. -/
def assignmentKeyGe (a b : Assignment) : Bool :=
  match a.created_at, b.created_at with
  | _, none => true
  | none, some _ => false
  | some x, some y => y ≤ x

/-- `assignmentKeyGe` as a relation, for the sort. -/
def assignGe (a b : Assignment) : Prop :=
  assignmentKeyGe a b = true

instance : DecidableRel assignGe :=
  fun a b => inferInstanceAs (Decidable (assignmentKeyGe a b = true))

instance : IsTotal Assignment assignGe :=
  ⟨fun a b => by
    unfold assignGe assignmentKeyGe
    rcases ha : a.created_at with _ | x <;> rcases hb : b.created_at with _ | y <;> simp_all
    exact Int.le_total y x⟩

instance : IsTrans Assignment assignGe :=
  ⟨fun a b c h h' => by
    unfold assignGe assignmentKeyGe at *
    rcases ha : a.created_at with _ | x <;> rcases hb : b.created_at with _ | y <;>
      rcases hc : c.created_at with _ | z <;> simp_all
    omega⟩

/-- `assignments.sort((a,b) => bd - ad)`: created-at descending, absent
timestamps last. JS `Array.sort` is stable, and a stable sort's output
under a total transitive comparator is unique, so it is embedded as the
(stable) insertion sort under `assignGe`. -/
def sortAssignmentsDesc (l : List Assignment) : List Assignment :=
  List.insertionSort assignGe l

/-- The `rangeChoice` after `startMissingSubmissions` parses it:
`'ALL'` or a positive integer. -/
inductive MaxAssignments where
  | all
  | num (n : Nat)
  deriving Repr, DecidableEq

/-- Sort then `if (maxAssignments !== 'ALL') assignments = assignments.slice(0, maxAssignments)`. -/
def retainedAssignments (limit : MaxAssignments) (l : List Assignment) :
    List Assignment :=
  match limit with
  | .all => sortAssignmentsDesc l
  | .num n => (sortAssignmentsDesc l).take n

/-- One data row of the Missing Submissions sheet. -/
structure MissingRow where
  studentName : String
  assignmentName : String
  createdAt : Option Int
  courseName : String
  link : String
  deriving Repr, DecidableEq

/-- What `appendMissingForCourse_` writes for one retained assignment:
either the green `✓ No missing submissions for: name` row, or the
assignment title row followed by one row per missing student. -/
inductive AsmtBlock where
  | noMissing (assignmentName : String)
  | missingList (assignmentName : String) (rows : List MissingRow)
  deriving Repr, DecidableEq

/-- One course's section on the Missing Submissions sheet: the course
divider, optionally the italic `No assignments found` note, and the
per-assignment blocks. -/
structure CourseSection where
  courseName : String
  noAssignmentsNote : Bool
  blocks : List AsmtBlock
  deriving Repr, DecidableEq

/-- The body of the `assignments.forEach` loop in
`appendMissingForCourse_` for one retained assignment. -/
def missingBlockFor (settings : Settings) (env : CanvasEnv) (courseId courseName : String)
    (students : List Student) (asmt : Assignment) : AsmtBlock :=
  let subs := getAssignmentSubmissionsRaw_ env courseId asmt.id
  let missing := missingForAssignment students subs
  if missing.isEmpty then
    .noMissing asmt.name
  else
    .missingList asmt.name (missing.map (fun m =>
      { studentName := m.name
        assignmentName := asmt.name
        createdAt := asmt.created_at
        courseName := courseName
        link := speedGraderUrlOf settings courseId asmt.id m.id }))

/-- `appendMissingForCourse_(settings, courseId, maxAssignments, out)`,
returning the section it appends instead of writing cells. -/
def appendMissingForCourse_ (settings : Settings) (env : CanvasEnv)
    (courseId : String) (maxAssignments : MaxAssignments) : CourseSection :=
  let courseName := courseNameOrFallback env courseId
  let students := getCourseStudents_ env courseId
  let assignments := retainedAssignments maxAssignments (getAssignments_ env courseId)
  if assignments.isEmpty then
    { courseName := courseName, noAssignmentsNote := true, blocks := [] }
  else
    { courseName := courseName
      noAssignmentsNote := false
      blocks := assignments.map (missingBlockFor settings env courseId courseName students) }

/-! ## `startMissingSubmissions` loop with its time-budget checkpoint -/

/-- Oracle for the ambient behaviour at the checkpoint after the course
at position `i` of the run: `exceeds i` is `Date.now() - START > MAX_MS`
there, `okPressed i` is whether the alert returned `ui.Button.OK`. -/
structure CheckpointEnv where
  exceeds : Nat → Bool
  okPressed : Nat → Bool

/-- Outcome of a `startMissingSubmissions` run: which courses were
processed (their sections written, in order), at which positions the
continue/cancel alert was surfaced, and whether the run ended by the
user cancelling at such an alert. -/
structure RunState where
  processedCourses : List String
  sections : List CourseSection
  prompts : List Nat
  cancelled : Bool
  deriving Repr, DecidableEq

/-- The `for (let i = 0; ...)` loop of `startMissingSubmissions`:
process the course, then
`if (Date.now() - START > MAX_MS && i < courseList.length - 1)` surface
the OK/CANCEL alert; a non-OK answer returns at once, keeping what was
already written. -/
def runCoursesFrom (cenv : CheckpointEnv) (settings : Settings) (env : CanvasEnv)
    (maxAssignments : MaxAssignments) : List String → Nat → RunState
  | [], _ => { processedCourses := [], sections := [], prompts := [], cancelled := false }
  | c :: rest, i =>
      let sec := appendMissingForCourse_ settings env c maxAssignments
      if cenv.exceeds i && !rest.isEmpty then
        if cenv.okPressed i then
          let r := runCoursesFrom cenv settings env maxAssignments rest (i + 1)
          { processedCourses := c :: r.processedCourses
            sections := sec :: r.sections
            prompts := i :: r.prompts
            cancelled := r.cancelled }
        else
          { processedCourses := [c], sections := [sec], prompts := [i], cancelled := true }
      else
        let r := runCoursesFrom cenv settings env maxAssignments rest (i + 1)
        { processedCourses := c :: r.processedCourses
          sections := sec :: r.sections
          prompts := r.prompts
          cancelled := r.cancelled }

/-- `startMissingSubmissions(courseChoice, rangeChoice)` after settings
load: select the course list and run the loop from position 0. -/
def startMissingSubmissions (cenv : CheckpointEnv) (settings : Settings)
    (env : CanvasEnv) (courseChoice : String) (maxAssignments : MaxAssignments) :
    RunState :=
  let courseList := if courseChoice = "ALL" then settings.courseIds else [courseChoice]
  runCoursesFrom cenv settings env maxAssignments courseList 0

/-- Override the submissions-with-user endpoint at one
course/assignment pair. -/
def CanvasEnv.withSubsFor (env : CanvasEnv) (c : String) (a : Int)
    (v : Except FetchError (Option (List Submission))) : CanvasEnv :=
  { env with subsWithUser := fun c2 a2 =>
      if c2 = c ∧ a2 = a then v else env.subsWithUser c2 a2 }

/-- Override the assignments endpoint at one course. -/
def CanvasEnv.withAssignmentsFor (env : CanvasEnv) (c : String)
    (v : Except FetchError (Option (List Assignment))) : CanvasEnv :=
  { env with assignments := fun c2 =>
      if c2 = c then v else env.assignments c2 }

/-! ## Concrete fixtures used by witnesses -/

/-- A Settings sheet whose required fields are present and non-placeholder
but normalize to nothing: base URL `https://` strips to `""` and course
IDs `,` splits to no ids. -/
def settingsSheetDegenerate : String → String := fun k =>
  if k = "Canvas Base URL" then "https://"
  else if k = "Canvas API Token" then "t"
  else if k = "Course IDs (comma-separated)" then "," else ""

/-- A well-formed Settings sheet. -/
def settingsSheetGood : String → String := fun k =>
  if k = "Canvas Base URL" then "https://school.edu/"
  else if k = "Canvas API Token" then "tok"
  else if k = "Course IDs (comma-separated)" then "101, 202" else ""

/-- The configuration `getSettings` produces from `settingsSheetGood`. -/
def settingsGoodW : Settings :=
  { baseUrl := "school.edu", apiToken := "tok", courseIds := ["101", "202"]
    hoursBack := 24, runTime := "5:00 AM", showOnlyUngraded := false
    highlightLate := false }

/-- A concrete validated configuration. -/
def settingsW : Settings :=
  { baseUrl := "school.edu", apiToken := "tok", courseIds := ["101"]
    hoursBack := 24, runTime := "5:00 AM", showOnlyUngraded := false
    highlightLate := false }

/-- `settingsW` with three configured courses, for the checkpoint
witness. -/
def settingsMultiW : Settings :=
  { settingsW with courseIds := ["1", "2", "3"] }

/-- An environment where every endpoint answers with an empty payload. -/
def emptyEnv : CanvasEnv :=
  { course := fun _ => .ok none
    assignments := fun _ => .ok (some [])
    subsWithUser := fun _ _ => .ok (some [])
    rawSubs := fun _ _ => .ok (some [])
    students := fun _ => .ok (some []) }

/-- Submission fixtures: a timely one, a late-window one, an
unsubmitted shell, and a graded one. -/
def subTimelyW : Submission :=
  { submitted_at := some 200, workflow_state := "submitted", user_id := 1
    late := false, user := some { name := some "Ada", sortable_name := some "Ada, L" } }

def subOldW : Submission :=
  { submitted_at := some 50, workflow_state := "submitted", user_id := 2
    late := false, user := none }

def subUnsubmittedW : Submission :=
  { submitted_at := none, workflow_state := "unsubmitted", user_id := 3
    late := false, user := none }

def subGradedW : Submission :=
  { submitted_at := some 150, workflow_state := "graded", user_id := 4
    late := true, user := some { name := none, sortable_name := some "Birk, O" } }

/-- Environment for the recency-aggregator witnesses: one course with
one assignment whose submissions cover all skip cases. With
`now = 24*3600000 + 100` the cutoff is `100`. -/
def envRecencyW : CanvasEnv :=
  { emptyEnv with
    course := fun _ => .ok (some { name := some "Algebra" })
    assignments := fun c =>
      if c = "101" then .ok (some [{ id := 7, name := "HW1", created_at := some 1000 }])
      else .ok (some [])
    subsWithUser := fun c a =>
      if c = "101" && a = 7 then
        .ok (some [subTimelyW, subOldW, subUnsubmittedW, subGradedW])
      else .ok (some []) }

/-- The record `processSubmission` emits for `subTimelyW` in
`envRecencyW`. -/
def recTimelyW : RecentRecord :=
  { studentName := "Ada", courseName := "Algebra", assignmentName := "HW1"
    submittedDate := 200, isLate := false, isGraded := false
    speedGraderUrl :=
      "https://school.edu/courses/101/gradebook/speed_grader?assignment_id=7&student_id=1" }

/-- The record `processSubmission` emits for `subGradedW` in
`envRecencyW`. -/
def recGradedW : RecentRecord :=
  { studentName := "Birk, O", courseName := "Algebra", assignmentName := "HW1"
    submittedDate := 150, isLate := true, isGraded := true
    speedGraderUrl :=
      "https://school.edu/courses/101/gradebook/speed_grader?assignment_id=7&student_id=4" }

/-- Environment for the missing-submissions witnesses: course `101` has
two assignments and a three-student roster; only student 1 really
submitted assignment 7 (student 3's submission is an unsubmitted
shell). -/
def envMissingW : CanvasEnv :=
  { emptyEnv with
    course := fun _ => .ok (some { name := some "Algebra" })
    assignments := fun c =>
      if c = "101" then
        .ok (some [{ id := 7, name := "HW1", created_at := some 2000 },
                   { id := 8, name := "HW2", created_at := some 1000 }])
      else .ok (some [])
    rawSubs := fun c a =>
      if c = "101" && a = 7 then
        .ok (some [{ submitted_at := some 500, workflow_state := "submitted", user_id := 1
                     late := false, user := none },
                   { submitted_at := none, workflow_state := "unsubmitted", user_id := 3
                     late := false, user := none }])
      else .ok (some [])
    students := fun c =>
      if c = "101" then
        .ok (some [{ id := 1, name := some "Ada", sortable_name := none },
                   { id := 2, name := some "Bo", sortable_name := none },
                   { id := 3, name := some "Cy", sortable_name := none }])
      else .ok (some []) }

/-- Environment whose roster endpoint fails with a 403. -/
def envRosterFailW : CanvasEnv :=
  { envMissingW with students := fun _ => .error (.auth 403) }

/-- Assignment fixtures for the ordering witness: one absent timestamp
and three distinct creation times. -/
def asmtNoneW : Assignment := { id := 1, name := "Quiz0", created_at := none }

def asmtEarlyW : Assignment := { id := 2, name := "Quiz1", created_at := some 100 }

def asmtLateW : Assignment := { id := 3, name := "Quiz3", created_at := some 300 }

def asmtMidW : Assignment := { id := 4, name := "Quiz2", created_at := some 200 }

def assignmentsW : List Assignment := [asmtNoneW, asmtEarlyW, asmtLateW, asmtMidW]

/-- Checkpoint oracle: the budget is exceeded after every course and
the user declines to continue. -/
def cenvCancelW : CheckpointEnv :=
  { exceeds := fun _ => true, okPressed := fun _ => false }

/-! ## Theorems -/

/-- C10: the lookback value defaults to 24 whenever `parseInt` of the
`Hours to Look Back` setting is `NaN` (absent or non-numeric) or `0` —
in particular the input string `"0"` parses to `0` yet yields 24, so a
zero-hour window cannot be configured — while any nonzero parsed
integer, negative ones included, is kept as-is; this is the value
`getSettings` stores in `hoursBack`. -/
theorem hoursBack_zero_defaults :
    (∀ v : String, jsParseInt v = some 0 → jsParseIntOr24 v = 24)
    ∧ (∀ v : String, jsParseInt v = none → jsParseIntOr24 v = 24)
    ∧ (∀ (v : String) (n : Int), jsParseInt v = some n → n ≠ 0 → jsParseIntOr24 v = n)
    ∧ jsParseInt "0" = some 0
    ∧ jsParseIntOr24 "0" = 24
    ∧ (∀ (g : String → String) (s : Settings), getSettings g = .ok s →
        s.hoursBack = jsParseIntOr24 (g "Hours to Look Back")) := by
  refine ⟨?_, ?_, ?_, by decide, by rfl, ?_⟩
  · intro v h; simp [jsParseIntOr24, h]
  · intro v h; simp [jsParseIntOr24, h]
  · intro v n h hn; simp [jsParseIntOr24, h, hn]
  · intro g s h
    unfold getSettings at h
    split at h
    · exact Except.noConfusion h
    · split at h
      · exact Except.noConfusion h
      · split at h
        · exact Except.noConfusion h
        · cases h; rfl

/-- Witness for C10: `"0"`, the empty string, and `"-5"` evaluated
concretely through `hoursBack_zero_defaults`. -/
theorem hoursBack_zero_defaults_witness :
    jsParseIntOr24 "0" = 24 ∧ jsParseIntOr24 "" = 24 ∧ jsParseIntOr24 "-5" = -5 :=
  ⟨hoursBack_zero_defaults.1 "0" (by decide),
   hoursBack_zero_defaults.2.1 "" (by decide),
   hoursBack_zero_defaults.2.2.1 "-5" (-5) (by decide) (by decide)⟩

/-- C6 counterexample: a sheet whose required fields are all present
and non-placeholder (`https://`, `t`, `,`) loads successfully, yet the
normalized `baseUrl` is empty and `courseIds` is the empty list — so
success does not guarantee non-empty `baseHost` and `courseIds`. -/
theorem getSettings_success_with_empty_fields :
    getSettings settingsSheetDegenerate =
      .ok { baseUrl := "", apiToken := "t", courseIds := [], hoursBack := 24
            runTime := "5:00 AM", showOnlyUngraded := false, highlightLate := false }
    ∧ ¬ (∀ (g : String → String) (s : Settings),
          getSettings g = .ok s → s.baseUrl ≠ "" ∧ s.courseIds ≠ []) := by
  constructor
  · rfl
  · intro hall
    have h := hall settingsSheetDegenerate
      { baseUrl := "", apiToken := "t", courseIds := [], hoursBack := 24
        runTime := "5:00 AM", showOnlyUngraded := false, highlightLate := false } (by rfl)
    exact h.1 rfl

/-- C6 (amended): `getSettings` fails when any required field (base URL,
API token, course IDs) is absent or equals its placeholder sentinel, and
it performs no network access (it is a pure function of the sheet); on
success the `apiToken` is the raw non-empty setting, but the normalized
`baseUrl` and `courseIds` may still be empty, since validation checks
the raw values before normalization. -/
theorem getSettings_validation :
    ∀ g : String → String,
      ((g "Canvas Base URL" = "" ∨ g "Canvas Base URL" = "yourschool.instructure.com" ∨
        g "Canvas API Token" = "" ∨ g "Canvas API Token" = "PASTE_YOUR_TOKEN_HERE" ∨
        g "Course IDs (comma-separated)" = "") →
        ∃ msg, getSettings g = .error msg)
      ∧ (∀ s : Settings, getSettings g = .ok s →
          s.apiToken = g "Canvas API Token" ∧ s.apiToken ≠ "") := by
  intro g
  constructor
  · intro hreq
    unfold getSettings
    split
    · exact ⟨_, rfl⟩
    · split
      · exact ⟨_, rfl⟩
      · split
        · exact ⟨_, rfl⟩
        · exfalso
          rcases hreq with h | h | h | h | h <;> simp_all
  · intro s h
    unfold getSettings at h
    split at h
    · exact Except.noConfusion h
    · split at h
      · exact Except.noConfusion h
      · split at h
        · exact Except.noConfusion h
        · cases h
          constructor
          · rfl
          · intro hempty
            simp_all

/-- Witness for C6 (amended): the all-empty sheet is rejected, and the
well-formed sheet loads with its raw non-empty token. -/
theorem getSettings_validation_witness :
    (∃ msg, getSettings (fun _ => "") = Except.error msg)
    ∧ (settingsGoodW.apiToken = settingsSheetGood "Canvas API Token"
        ∧ settingsGoodW.apiToken ≠ "") :=
  ⟨(getSettings_validation (fun _ => "")).1 (Or.inl rfl),
   (getSettings_validation settingsSheetGood).2 settingsGoodW (by rfl)⟩

/-- C7: `canvasFetch_` classifies outcomes of a fetch: 401/403 raise an
auth error for that resource; any other non-2xx raises an upstream
error carrying the status and the body truncated to 500 characters;
a 2xx with empty body returns `none` without parsing; a 2xx whose body
fails to parse raises a decode error, and one that parses returns the
value; the URL fetched is `https://{baseHost}{path}` unless the path
already starts with `http`. -/
theorem canvasFetch_classification :
    ∀ {α : Type} (settings : Settings) (http : String → HttpResponse)
      (parse : String → Option α) (url : String),
      ((http (fullUrlOf settings url)).code = 401 ∨ (http (fullUrlOf settings url)).code = 403 →
        canvasFetch_ settings http parse url = .error (.auth (http (fullUrlOf settings url)).code))
      ∧ ((http (fullUrlOf settings url)).code ≠ 401 → (http (fullUrlOf settings url)).code ≠ 403 →
          ((http (fullUrlOf settings url)).code < 200 ∨ 300 ≤ (http (fullUrlOf settings url)).code) →
          canvasFetch_ settings http parse url =
            .error (.upstream (http (fullUrlOf settings url)).code
              (jsSlice (http (fullUrlOf settings url)).body 500)))
      ∧ (200 ≤ (http (fullUrlOf settings url)).code → (http (fullUrlOf settings url)).code < 300 →
          (http (fullUrlOf settings url)).body = "" →
          canvasFetch_ settings http parse url = .ok none)
      ∧ (200 ≤ (http (fullUrlOf settings url)).code → (http (fullUrlOf settings url)).code < 300 →
          (http (fullUrlOf settings url)).body ≠ "" →
          parse (http (fullUrlOf settings url)).body = none →
          canvasFetch_ settings http parse url = .error .decode)
      ∧ (∀ v, 200 ≤ (http (fullUrlOf settings url)).code → (http (fullUrlOf settings url)).code < 300 →
          (http (fullUrlOf settings url)).body ≠ "" →
          parse (http (fullUrlOf settings url)).body = some v →
          canvasFetch_ settings http parse url = .ok (some v))
      ∧ (jsStartsWith url "http" = false →
          fullUrlOf settings url = "https://" ++ settings.baseUrl ++ url)
      ∧ (jsStartsWith url "http" = true → fullUrlOf settings url = url) := by
  intro α settings http parse url
  refine ⟨?_, ?_, ?_, ?_, ?_, ?_, ?_⟩
  · intro h
    unfold canvasFetch_
    rcases h with h | h <;> simp [h]
  · intro h1 h3 hr
    unfold canvasFetch_
    rcases hr with hlt | hge
    · simp [h1, h3, hlt]
    · simp [h1, h3, hge]
  · intro h2 h3 hb
    unfold canvasFetch_
    have e1 : (http (fullUrlOf settings url)).code ≠ 401 := by omega
    have e2 : (http (fullUrlOf settings url)).code ≠ 403 := by omega
    have e3 : ¬ (http (fullUrlOf settings url)).code < 200 := by omega
    have e4 : ¬ 300 ≤ (http (fullUrlOf settings url)).code := by omega
    simp [e1, e2, e3, e4, hb]
  · intro h2 h3 hb hp
    unfold canvasFetch_
    have e1 : (http (fullUrlOf settings url)).code ≠ 401 := by omega
    have e2 : (http (fullUrlOf settings url)).code ≠ 403 := by omega
    have e3 : ¬ (http (fullUrlOf settings url)).code < 200 := by omega
    have e4 : ¬ 300 ≤ (http (fullUrlOf settings url)).code := by omega
    simp [e1, e2, e3, e4, hb, hp]
  · intro v h2 h3 hb hp
    unfold canvasFetch_
    have e1 : (http (fullUrlOf settings url)).code ≠ 401 := by omega
    have e2 : (http (fullUrlOf settings url)).code ≠ 403 := by omega
    have e3 : ¬ (http (fullUrlOf settings url)).code < 200 := by omega
    have e4 : ¬ 300 ≤ (http (fullUrlOf settings url)).code := by omega
    simp [e1, e2, e3, e4, hb, hp]
  · intro h
    unfold fullUrlOf
    simp [h]
  · intro h
    unfold fullUrlOf
    simp [h]

/-- Witness for C7: one concrete call per classification outcome. -/
theorem canvasFetch_classification_witness :
    canvasFetch_ (α := Nat) settingsW (fun _ => ⟨403, "denied"⟩) (fun _ => none) "/api/v1/x"
      = .error (.auth 403)
    ∧ canvasFetch_ (α := Nat) settingsW (fun _ => ⟨500, "boom"⟩) (fun _ => none) "/api/v1/x"
      = .error (.upstream 500 "boom")
    ∧ canvasFetch_ (α := Nat) settingsW (fun _ => ⟨200, ""⟩) (fun _ => none) "/api/v1/x"
      = .ok none
    ∧ canvasFetch_ (α := Nat) settingsW (fun _ => ⟨200, "bad json"⟩) (fun _ => none) "/api/v1/x"
      = .error .decode
    ∧ canvasFetch_ (α := Nat) settingsW (fun _ => ⟨200, "7"⟩) (fun _ => some 7) "/api/v1/x"
      = .ok (some 7)
    ∧ fullUrlOf settingsW "/api/v1/x" = "https://" ++ settingsW.baseUrl ++ "/api/v1/x" :=
  ⟨(canvasFetch_classification settingsW (fun _ => ⟨403, "denied"⟩) (fun _ => none)
      "/api/v1/x").1 (Or.inr rfl),
   (canvasFetch_classification settingsW (fun _ => ⟨500, "boom"⟩) (fun _ => none)
      "/api/v1/x").2.1 (by decide) (by decide) (by decide),
   (canvasFetch_classification settingsW (fun _ => ⟨200, ""⟩) (fun _ => none)
      "/api/v1/x").2.2.1 (by decide) (by decide) rfl,
   (canvasFetch_classification settingsW (fun _ => ⟨200, "bad json"⟩) (fun _ => none)
      "/api/v1/x").2.2.2.1 (by decide) (by decide) (by decide) rfl,
   (canvasFetch_classification settingsW (fun _ => ⟨200, "7"⟩) (fun _ => some 7)
      "/api/v1/x").2.2.2.2.1 7 (by decide) (by decide) (by decide) rfl,
   (canvasFetch_classification (α := Nat) settingsW (fun _ => ⟨200, ""⟩) (fun _ => none)
      "/api/v1/x").2.2.2.2.2.1 (by decide)⟩

/-- C1: on a successful submissions fetch, the recency filter emits one
record per array element through `processSubmission`, and
`processSubmission` emits a record if and only if the submission is
real (`submitted_at` present and `workflow_state` not `unsubmitted`),
its timestamp is not before `now - hoursBack` hours, and it is not the
case that the ungraded-only flag is set while the submission is already
graded; submissions failing any clause are skipped. -/
theorem recency_emission_iff :
    ∀ (settings : Settings) (env : CanvasEnv) (courseId : String) (assignmentId : Int)
      (assignmentName courseName : String) (now : Int) (arr : List Submission),
      env.subsWithUser courseId assignmentId = .ok (some arr) →
      (getAssignmentSubmissionsFiltered_ settings env courseId assignmentId assignmentName
          courseName (now - settings.hoursBack * 3600000)
        = arr.filterMap (processSubmission settings courseId assignmentId assignmentName
            courseName (now - settings.hoursBack * 3600000)))
      ∧ ∀ s ∈ arr,
          (processSubmission settings courseId assignmentId assignmentName courseName
              (now - settings.hoursBack * 3600000) s).isSome = true
          ↔ ((∃ t, s.submitted_at = some t ∧ now - settings.hoursBack * 3600000 ≤ t)
              ∧ s.workflow_state ≠ "unsubmitted"
              ∧ ¬(settings.showOnlyUngraded = true ∧ s.workflow_state = "graded")) := by
  intro settings env courseId assignmentId assignmentName courseName now arr h
  constructor
  · unfold getAssignmentSubmissionsFiltered_
    rw [h]
  · intro s _
    rcases hs : s.submitted_at with _ | t
    · simp [processSubmission, hs]
    · by_cases hw : s.workflow_state = "unsubmitted"
      · simp [processSubmission, hs, hw]
      · by_cases hc : t < now - settings.hoursBack * 3600000
        · have hnc : ¬ (now - settings.hoursBack * 3600000 ≤ t) := by omega
          simp [processSubmission, hs, hw, hc, hnc]
          intro hx
          exfalso
          omega
        · have hcc : now - settings.hoursBack * 3600000 ≤ t := by omega
          by_cases hu : settings.showOnlyUngraded
          · by_cases hg : s.workflow_state = "graded"
            · simp [processSubmission, hs, hw, hc, hu, hg]
            · simp [processSubmission, hs, hw, hc, hcc, hu, hg]
              omega
          · simp [processSubmission, hs, hw, hc, hcc, hu]
            omega

/-- Witness for C1: with a 24h window ending at `24h+100`, the fetched
array `[timely, too-old, unsubmitted, graded]` yields exactly the
timely and graded records, and the emission test holds concretely on
the timely submission. -/
theorem recency_emission_iff_witness :
    getAssignmentSubmissionsFiltered_ settingsW envRecencyW "101" 7 "HW1" "Algebra"
        (24 * 3600000 + 100 - settingsW.hoursBack * 3600000)
      = [recTimelyW, recGradedW]
    ∧ (processSubmission settingsW "101" 7 "HW1" "Algebra"
        (24 * 3600000 + 100 - settingsW.hoursBack * 3600000) subTimelyW).isSome = true := by
  have h := recency_emission_iff settingsW envRecencyW "101" 7 "HW1" "Algebra"
    (24 * 3600000 + 100) [subTimelyW, subOldW, subUnsubmittedW, subGradedW] (by rfl)
  refine ⟨h.1.trans (by rfl), ?_⟩
  exact (h.2 subTimelyW (by decide)).mpr ⟨⟨200, rfl, by decide⟩, by decide, by decide⟩

/-- C2: for every retained assignment of a course, the resolver's block
for it is part of the course section, and the missing list is exactly
the roster minus the real-submission ids: no missing student's id has a
real submission, every roster student not missing has one, and the
missing and submitted roster subsets are disjoint and cover the
roster. -/
theorem missing_partitions_roster :
    ∀ (settings : Settings) (env : CanvasEnv) (courseId : String)
      (limit : MaxAssignments) (asmt : Assignment),
      asmt ∈ retainedAssignments limit (getAssignments_ env courseId) →
      (missingBlockFor settings env courseId (courseNameOrFallback env courseId)
          (getCourseStudents_ env courseId) asmt
        ∈ (appendMissingForCourse_ settings env courseId limit).blocks)
      ∧ (∀ stu ∈ missingForAssignment (getCourseStudents_ env courseId)
            (getAssignmentSubmissionsRaw_ env courseId asmt.id),
          stu.id ∉ realSubmittedIds (getAssignmentSubmissionsRaw_ env courseId asmt.id))
      ∧ (∀ stu ∈ getCourseStudents_ env courseId,
          stu ∉ missingForAssignment (getCourseStudents_ env courseId)
              (getAssignmentSubmissionsRaw_ env courseId asmt.id) →
          stu.id ∈ realSubmittedIds (getAssignmentSubmissionsRaw_ env courseId asmt.id))
      ∧ (∀ stu : Student,
          ¬ (stu ∈ missingForAssignment (getCourseStudents_ env courseId)
                (getAssignmentSubmissionsRaw_ env courseId asmt.id)
              ∧ stu ∈ submittedRoster (getCourseStudents_ env courseId)
                (getAssignmentSubmissionsRaw_ env courseId asmt.id)))
      ∧ (∀ stu ∈ getCourseStudents_ env courseId,
          stu ∈ missingForAssignment (getCourseStudents_ env courseId)
              (getAssignmentSubmissionsRaw_ env courseId asmt.id)
            ∨ stu ∈ submittedRoster (getCourseStudents_ env courseId)
                (getAssignmentSubmissionsRaw_ env courseId asmt.id)) := by
  intro settings env courseId limit asmt hmem
  refine ⟨?_, ?_, ?_, ?_, ?_⟩
  · unfold appendMissingForCourse_
    have hne : (retainedAssignments limit (getAssignments_ env courseId)).isEmpty = false := by
      cases hr : retainedAssignments limit (getAssignments_ env courseId)
      · rw [hr] at hmem
        cases hmem
      · rfl
    simp only [hne, Bool.false_eq_true, if_false]
    exact List.mem_map_of_mem _ hmem
  · intro stu hstu
    unfold missingForAssignment at hstu
    rw [List.mem_filter] at hstu
    simpa using hstu.2
  · intro stu hstu hnot
    by_contra hmem2
    exact hnot (List.mem_filter.mpr ⟨hstu, by simpa using hmem2⟩)
  · rintro stu ⟨h1, h2⟩
    unfold missingForAssignment at h1
    unfold submittedRoster at h2
    rw [List.mem_filter] at h1 h2
    have := h1.2
    have := h2.2
    simp_all
  · intro stu hstu
    by_cases hc : stu.id ∈ realSubmittedIds (getAssignmentSubmissionsRaw_ env courseId asmt.id)
    · right
      exact List.mem_filter.mpr ⟨hstu, by simpa using hc⟩
    · left
      exact List.mem_filter.mpr ⟨hstu, by simpa using hc⟩

/-- Witness for C2: in `envMissingW` only student 1 really submitted
assignment 7, so the missing list for it is students 2 and 3; student 2
is not among the real-submission ids and student 1 falls in the
submitted part of the partition. -/
theorem missing_partitions_roster_witness :
    missingForAssignment (getCourseStudents_ envMissingW "101")
        (getAssignmentSubmissionsRaw_ envMissingW "101" 7)
      = [{ id := 2, name := "Bo" }, { id := 3, name := "Cy" }]
    ∧ ({ id := 2, name := "Bo" } : Student).id
        ∉ realSubmittedIds (getAssignmentSubmissionsRaw_ envMissingW "101" 7)
    ∧ (({ id := 1, name := "Ada" } : Student)
          ∈ missingForAssignment (getCourseStudents_ envMissingW "101")
            (getAssignmentSubmissionsRaw_ envMissingW "101" 7)
        ∨ ({ id := 1, name := "Ada" } : Student)
          ∈ submittedRoster (getCourseStudents_ envMissingW "101")
            (getAssignmentSubmissionsRaw_ envMissingW "101" 7)) := by
  have h := missing_partitions_roster settingsW envMissingW "101" (.num 2)
    { id := 7, name := "HW1", created_at := some 2000 } (by decide)
  exact ⟨by rfl,
    h.2.1 { id := 2, name := "Bo" } (by decide),
    h.2.2.2.2 { id := 1, name := "Ada" } (by decide)⟩

/-- With an empty roster, every assignment's block is the green
no-missing row. -/
theorem missingBlockFor_nil_students (settings : Settings) (env : CanvasEnv)
    (courseId courseName : String) (asmt : Assignment) :
    missingBlockFor settings env courseId courseName [] asmt = .noMissing asmt.name := by
  unfold missingBlockFor missingForAssignment
  simp

/-- C9: if fetching a course's roster fails with any error (a 403 auth
error included), `getCourseStudents_` silently yields the empty list,
so every retained assignment of the course reports the no-missing row —
the course section is identical to the one produced when the roster
endpoint returns an empty student list, making the failure
indistinguishable from every student having submitted. -/
theorem roster_failure_silently_empty :
    ∀ (settings : Settings) (env : CanvasEnv) (courseId : String)
      (limit : MaxAssignments) (e : FetchError),
      env.students courseId = .error e →
      getCourseStudents_ env courseId = []
      ∧ (appendMissingForCourse_ settings env courseId limit).blocks
          = (retainedAssignments limit (getAssignments_ env courseId)).map
              (fun a => AsmtBlock.noMissing a.name)
      ∧ appendMissingForCourse_ settings env courseId limit
          = appendMissingForCourse_ settings
              { env with students := fun _ => .ok (some []) } courseId limit := by
  intro settings env courseId limit e h
  have hstu : getCourseStudents_ env courseId = [] := by
    simp [getCourseStudents_, h]
  have hstu2 : getCourseStudents_ { env with students := fun _ => .ok (some []) } courseId
      = [] := by
    simp [getCourseStudents_]
  refine ⟨hstu, ?_, ?_⟩
  · unfold appendMissingForCourse_
    rw [hstu]
    cases hr : retainedAssignments limit (getAssignments_ env courseId)
    · simp
    · simp only [List.isEmpty_cons, Bool.false_eq_true, if_false]
      exact List.map_congr_left (fun a _ =>
        missingBlockFor_nil_students settings env courseId
          (courseNameOrFallback env courseId) a)
  · unfold appendMissingForCourse_
    rw [hstu, hstu2]
    rfl

/-- Witness for C9: in `envRosterFailW` (roster endpoint returns a 403)
the roster is empty and assignment `HW1` is reported with the
no-missing row. -/
theorem roster_failure_silently_empty_witness :
    getCourseStudents_ envRosterFailW "101" = []
    ∧ (appendMissingForCourse_ settingsW envRosterFailW "101" (.num 1)).blocks
        = [AsmtBlock.noMissing "HW1"] := by
  have h := roster_failure_silently_empty settingsW envRosterFailW "101" (.num 1)
    (.auth 403) (by rfl)
  exact ⟨h.1, h.2.1.trans (by rfl)⟩

/-- C4: per course the resolver's assignment list is sorted
non-increasing by `created_at` as a permutation of the fetched list,
absent-timestamp assignments come last (an absent timestamp at position
`i` forces one at every later position), `ALL` retains the whole sorted
list, and a numeric limit `n` retains exactly the top-`n` of that order
(all of them when fewer exist): the retained list is the sorted prefix
of length `min n (length)`, and every retained assignment is
`assignGe`-above every dropped one. -/
theorem assignment_order_and_truncation :
    ∀ (l : List Assignment) (n : Nat),
      (sortAssignmentsDesc l).Pairwise assignGe
      ∧ (sortAssignmentsDesc l).Perm l
      ∧ (∀ (i j : Nat) (hi : i < (sortAssignmentsDesc l).length)
            (hj : j < (sortAssignmentsDesc l).length), i ≤ j →
          ((sortAssignmentsDesc l).get ⟨i, hi⟩).created_at = none →
          ((sortAssignmentsDesc l).get ⟨j, hj⟩).created_at = none)
      ∧ retainedAssignments .all l = sortAssignmentsDesc l
      ∧ retainedAssignments (.num n) l = (sortAssignmentsDesc l).take n
      ∧ (retainedAssignments (.num n) l).length = min n l.length
      ∧ (∀ a ∈ (sortAssignmentsDesc l).take n, ∀ b ∈ (sortAssignmentsDesc l).drop n,
          assignGe a b) := by
  intro l n
  have hsort : (sortAssignmentsDesc l).Pairwise assignGe :=
    List.sorted_insertionSort assignGe l
  have hperm : (sortAssignmentsDesc l).Perm l :=
    List.perm_insertionSort assignGe l
  refine ⟨hsort, hperm, ?_, rfl, rfl, ?_, ?_⟩
  · intro i j hi hj hij hnone
    rcases Nat.lt_or_ge i j with hlt | hge
    · have hR := List.pairwise_iff_get.mp hsort ⟨i, hi⟩ ⟨j, hj⟩ hlt
      rcases hb : ((sortAssignmentsDesc l).get ⟨j, hj⟩).created_at with _ | y
      · rfl
      · exfalso
        unfold assignGe assignmentKeyGe at hR
        simp only [List.get_eq_getElem] at hnone hb
        simp [hnone, hb] at hR
    · have : i = j := Nat.le_antisymm hij hge
      subst this
      exact hnone
  · simp [retainedAssignments, List.length_take, hperm.length_eq]
  · intro a ha b hb
    have h2 : ((sortAssignmentsDesc l).take n ++ (sortAssignmentsDesc l).drop n).Pairwise
        assignGe := by
      rw [List.take_append_drop]
      exact hsort
    exact (List.pairwise_append.mp h2).2.2 a ha b hb

/-- Witness for C4: `[none, 100, 300, 200]` sorts to
`[300, 200, 100, none]`, limit 2 retains exactly the top two, and the
retained assignments dominate the dropped ones. -/
theorem assignment_order_and_truncation_witness :
    retainedAssignments (.num 2) assignmentsW = [asmtLateW, asmtMidW]
    ∧ sortAssignmentsDesc assignmentsW = [asmtLateW, asmtMidW, asmtEarlyW, asmtNoneW]
    ∧ assignGe asmtMidW asmtEarlyW := by
  have h := assignment_order_and_truncation assignmentsW 2
  refine ⟨h.2.2.2.2.1.trans (by rfl), by rfl, ?_⟩
  exact h.2.2.2.2.2.2 asmtMidW (by decide) asmtEarlyW (by decide)

/-- Every record the recency filter emits has its timestamp at or after
the cutoff. -/
theorem cutoff_le_of_mem_filtered (settings : Settings) (env : CanvasEnv)
    (courseId : String) (assignmentId : Int) (assignmentName courseName : String)
    (cutoff : Int) (r : RecentRecord) :
    r ∈ getAssignmentSubmissionsFiltered_ settings env courseId assignmentId
        assignmentName courseName cutoff →
    cutoff ≤ r.submittedDate := by
  intro hr
  unfold getAssignmentSubmissionsFiltered_ at hr
  rw [List.mem_filterMap] at hr
  obtain ⟨s, _, hps⟩ := hr
  unfold processSubmission at hps
  split at hps
  · exact absurd hps (by simp)
  · split at hps
    · exact absurd hps (by simp)
    · split at hps
      · exact absurd hps (by simp)
      · split at hps
        · exact absurd hps (by simp)
        · next hcut _ =>
            cases hps
            simpa using Int.not_lt.mp hcut

/-- C3: every record the aggregator outputs has
`submittedAt ≥ now - hoursBack` hours, and the merged output across all
configured courses and assignments is sorted non-increasing by
`submittedAt`. -/
theorem recency_window_and_sorted :
    ∀ (settings : Settings) (env : CanvasEnv) (now : Int),
      (∀ r ∈ fetchCanvasSubmissions_ settings env now,
        now - settings.hoursBack * 3600000 ≤ r.submittedDate)
      ∧ (fetchCanvasSubmissions_ settings env now).Pairwise recordGe := by
  intro settings env now
  constructor
  · intro r hr
    have hperm : (fetchCanvasSubmissions_ settings env now).Perm
        (settings.courseIds.flatMap (fun cid =>
          fetchCourseSubmissions_ settings env cid (courseNameOrFallback env cid)
            (now - settings.hoursBack * 3600000))) :=
      List.perm_insertionSort recordGe _
    have hr2 := hperm.subset hr
    rw [List.mem_flatMap] at hr2
    obtain ⟨cid, _, hr3⟩ := hr2
    unfold fetchCourseSubmissions_ at hr3
    rw [List.mem_flatMap] at hr3
    obtain ⟨asmt, _, hr4⟩ := hr3
    exact cutoff_le_of_mem_filtered settings env cid asmt.id asmt.name
      (courseNameOrFallback env cid) (now - settings.hoursBack * 3600000) r hr4
  · exact List.sorted_insertionSort recordGe _

/-- Witness for C3: the concrete run over `envRecencyW` contains the
timely record, its timestamp clears the cutoff, and the output is
sorted. -/
theorem recency_window_and_sorted_witness :
    24 * 3600000 + 100 - settingsW.hoursBack * 3600000 ≤ recTimelyW.submittedDate
    ∧ (fetchCanvasSubmissions_ settingsW envRecencyW (24 * 3600000 + 100)).Pairwise
        recordGe := by
  have h := recency_window_and_sorted settingsW envRecencyW (24 * 3600000 + 100)
  exact ⟨h.1 recTimelyW (by decide), h.2⟩

/-- Two lists built by `flatMap` agree when the functions agree on the
list's elements. -/
theorem flatMap_eq_of_eq_on {α β : Type} {l : List α} {f g : α → List β}
    (h : ∀ x ∈ l, f x = g x) : l.flatMap f = l.flatMap g := by
  induction l with
  | nil => rfl
  | cons a l ih =>
      simp only [List.flatMap_cons]
      rw [h a (List.mem_cons_self a l), ih (fun x hx => h x (List.mem_cons_of_mem a hx))]

/-- C5: a fetch failure at a single unit is absorbed at that unit: a
run in which one assignment's submissions fetch throws is identical to
a run in which that assignment merely has no submissions, and a run in
which one course's assignments fetch throws is identical to one in
which that course merely has no assignments — all other courses and
assignments contribute exactly their usual output and the aggregator
never aborts; the failing unit itself contributes the empty list. -/
theorem partial_failure_skips_unit :
    ∀ (settings : Settings) (env : CanvasEnv) (now : Int) (c : String) (a : Int)
      (e e2 : FetchError),
      fetchCanvasSubmissions_ settings (env.withSubsFor c a (.error e)) now
        = fetchCanvasSubmissions_ settings (env.withSubsFor c a (.ok (some []))) now
      ∧ fetchCanvasSubmissions_ settings (env.withAssignmentsFor c (.error e2)) now
        = fetchCanvasSubmissions_ settings (env.withAssignmentsFor c (.ok (some []))) now
      ∧ (∀ (an cn : String) (cutoff : Int),
          getAssignmentSubmissionsFiltered_ settings (env.withSubsFor c a (.error e))
            c a an cn cutoff = [])
      ∧ getAssignments_ (env.withAssignmentsFor c (.error e2)) c = [] := by
  intro settings env now c a e e2
  refine ⟨?_, ?_, ?_, ?_⟩
  · unfold fetchCanvasSubmissions_
    apply congrArg sortRecordsDesc
    apply flatMap_eq_of_eq_on
    intro cid _
    unfold fetchCourseSubmissions_
    rw [show getAssignments_ (env.withSubsFor c a (.error e)) cid
        = getAssignments_ (env.withSubsFor c a (.ok (some []))) cid from rfl]
    apply flatMap_eq_of_eq_on
    intro asmt _
    unfold getAssignmentSubmissionsFiltered_ CanvasEnv.withSubsFor
    by_cases hca : cid = c ∧ asmt.id = a
    · obtain ⟨h1, h2⟩ := hca
      simp [h1, h2]
    · simp only [hca, if_false]
      rfl
  · unfold fetchCanvasSubmissions_
    apply congrArg sortRecordsDesc
    apply flatMap_eq_of_eq_on
    intro cid _
    unfold fetchCourseSubmissions_ getAssignments_ CanvasEnv.withAssignmentsFor
    by_cases hc : cid = c
    · simp [hc]
    · simp only [hc, if_false]
      rfl
  · intro an cn cutoff
    unfold getAssignmentSubmissionsFiltered_ CanvasEnv.withSubsFor
    simp
  · unfold getAssignments_ CanvasEnv.withAssignmentsFor
    simp

/-- Behaviour of the `startMissingSubmissions` loop from an arbitrary
start position: the processed courses are a prefix of the list, their
sections are exactly the per-course outputs, a prompt is recorded at
position `j` exactly when course `j` was processed with the budget
exceeded and courses remaining, a run that was not cancelled processed
everything, and a cancelled run stopped right after a prompt whose
budget check was positive and whose answer was not OK. -/
theorem runCoursesFrom_spec (cenv : CheckpointEnv) (settings : Settings)
    (env : CanvasEnv) (maxA : MaxAssignments) :
    ∀ (cs : List String) (i0 : Nat) (r : RunState),
      runCoursesFrom cenv settings env maxA cs i0 = r →
      (r.processedCourses = cs.take r.processedCourses.length)
      ∧ r.sections = r.processedCourses.map
          (fun c => appendMissingForCourse_ settings env c maxA)
      ∧ (∀ j, j ∈ r.prompts ↔
          (i0 ≤ j ∧ j < i0 + r.processedCourses.length ∧ cenv.exceeds j = true
            ∧ j + 1 < i0 + cs.length))
      ∧ (r.cancelled = false → r.processedCourses.length = cs.length)
      ∧ (r.cancelled = true →
          0 < r.processedCourses.length ∧ r.processedCourses.length < cs.length
          ∧ cenv.exceeds (i0 + r.processedCourses.length - 1) = true
          ∧ cenv.okPressed (i0 + r.processedCourses.length - 1) = false) := by
  intro cs
  induction cs with
  | nil =>
      intro i0 r hr
      simp only [runCoursesFrom] at hr
      subst hr
      refine ⟨rfl, rfl, ?_, fun _ => rfl, by simp⟩
      intro j
      simp only [List.not_mem_nil, false_iff, List.length_nil]
      omega
  | cons c rest ih =>
      intro i0 r hr
      simp only [runCoursesFrom] at hr
      by_cases hx : (cenv.exceeds i0 && !rest.isEmpty) = true
      · have hxe : cenv.exceeds i0 = true := by
          cases hcee : cenv.exceeds i0
          · rw [hcee] at hx
            simp at hx
          · rfl
        have hxr : rest ≠ [] := by
          intro hre
          subst hre
          simp [hxe] at hx
        have hxlen : 0 < rest.length := List.length_pos.mpr hxr
        rw [if_pos hx] at hr
        by_cases hok : cenv.okPressed i0 = true
        · rw [if_pos hok] at hr
          obtain ⟨ih1, ih2, ih3, ih4, ih5⟩ :=
            ih (i0 + 1) (runCoursesFrom cenv settings env maxA rest (i0 + 1)) rfl
          subst hr
          refine ⟨?_, ?_, ?_, ?_, ?_⟩
          · simpa using ih1
          · simpa using ih2
          · intro j
            simp only [List.mem_cons, List.length_cons]
            constructor
            · rintro (rfl | hj)
              · exact ⟨le_refl _, by omega, hxe, by omega⟩
              · have h0 := (ih3 j).mp hj
                exact ⟨by omega, by omega, h0.2.2.1, by omega⟩
            · rintro ⟨h1, h2, h3, h4⟩
              by_cases hji : j = i0
              · exact Or.inl hji
              · exact Or.inr ((ih3 j).mpr ⟨by omega, by omega, h3, by omega⟩)
          · intro hcf
            have h0 := ih4 hcf
            simp only [List.length_cons, h0]
          · intro hct
            have h0 := ih5 hct
            simp only [List.length_cons]
            have harith : i0 + ((runCoursesFrom cenv settings env maxA rest
                (i0 + 1)).processedCourses.length + 1) - 1
                = i0 + 1 + (runCoursesFrom cenv settings env maxA rest
                  (i0 + 1)).processedCourses.length - 1 := by omega
            rw [harith]
            exact ⟨by omega, by omega, h0.2.2.1, h0.2.2.2⟩
        · rw [if_neg hok] at hr
          subst hr
          have hokf : cenv.okPressed i0 = false := by
            cases hcok : cenv.okPressed i0
            · rfl
            · exact absurd hcok hok
          refine ⟨rfl, rfl, ?_, ?_, ?_⟩
          · intro j
            simp only [List.mem_singleton, List.length_singleton, List.length_cons, List.length_nil]
            constructor
            · rintro rfl
              exact ⟨le_refl _, by omega, hxe, by omega⟩
            · rintro ⟨h1, h2, h3, h4⟩
              omega
          · intro h0
            exact absurd h0 (by simp)
          · intro _
            simp only [List.length_singleton, List.length_cons, List.length_nil]
            refine ⟨by omega, by omega, ?_, ?_⟩
            · simpa using hxe
            · simpa using hokf
      · rw [if_neg hx] at hr
        have hxw : cenv.exceeds i0 = false ∨ rest.isEmpty = true := by
          by_cases he : cenv.exceeds i0 = true
          · by_cases hre : rest.isEmpty = true
            · exact Or.inr hre
            · exfalso
              apply hx
              have : rest.isEmpty = false := by
                cases hri : rest.isEmpty
                · rfl
                · exact absurd hri hre
              rw [he, this]
              rfl
          · refine Or.inl ?_
            cases hce : cenv.exceeds i0
            · rfl
            · exact absurd hce he
        obtain ⟨ih1, ih2, ih3, ih4, ih5⟩ :=
          ih (i0 + 1) (runCoursesFrom cenv settings env maxA rest (i0 + 1)) rfl
        subst hr
        refine ⟨?_, ?_, ?_, ?_, ?_⟩
        · simpa using ih1
        · simpa using ih2
        · intro j
          simp only [List.length_cons]
          constructor
          · intro hj
            have h0 := (ih3 j).mp hj
            exact ⟨by omega, by omega, h0.2.2.1, by omega⟩
          · rintro ⟨h1, h2, h3, h4⟩
            have hji : j ≠ i0 := by
              rintro rfl
              rcases hxw with hw | hw
              · rw [h3] at hw
                cases hw
              · have hr0 : rest.length = 0 := by
                  cases rest
                  · rfl
                  · simp at hw
                omega
            exact (ih3 j).mpr ⟨by omega, by omega, h3, by omega⟩
        · intro hcf
          have h0 := ih4 hcf
          simp only [List.length_cons, h0]
        · intro hct
          have h0 := ih5 hct
          simp only [List.length_cons]
          have harith : i0 + ((runCoursesFrom cenv settings env maxA rest
              (i0 + 1)).processedCourses.length + 1) - 1
              = i0 + 1 + (runCoursesFrom cenv settings env maxA rest
                (i0 + 1)).processedCourses.length - 1 := by omega
          rw [harith]
          exact ⟨by omega, by omega, h0.2.2.1, h0.2.2.2⟩

/-- C8: in `startMissingSubmissions`, the processed courses are an
in-order prefix of the selected course list and their already-produced
sections are preserved in the result; the continue/cancel prompt is
surfaced after course `j` exactly when the elapsed-time budget is
exceeded there and courses remain; a run that was never cancelled
processes every course; and a cancelled run stops right after the
prompt at which the budget was exceeded and OK was not pressed,
leaving the remaining courses unprocessed. -/
theorem checkpoint_continue_cancel :
    ∀ (cenv : CheckpointEnv) (settings : Settings) (env : CanvasEnv)
      (maxA : MaxAssignments) (courseChoice : String),
      let courses := if courseChoice = "ALL" then settings.courseIds else [courseChoice]
      let r := startMissingSubmissions cenv settings env courseChoice maxA
      (r.processedCourses = courses.take r.processedCourses.length)
      ∧ r.sections = r.processedCourses.map
          (fun c => appendMissingForCourse_ settings env c maxA)
      ∧ (∀ j, j ∈ r.prompts ↔
          (j < r.processedCourses.length ∧ cenv.exceeds j = true ∧ j + 1 < courses.length))
      ∧ (r.cancelled = false → r.processedCourses.length = courses.length)
      ∧ (r.cancelled = true →
          0 < r.processedCourses.length ∧ r.processedCourses.length < courses.length
          ∧ cenv.exceeds (r.processedCourses.length - 1) = true
          ∧ cenv.okPressed (r.processedCourses.length - 1) = false) := by
  intro cenv settings env maxA courseChoice
  obtain ⟨h1, h2, h3, h4, h5⟩ := runCoursesFrom_spec cenv settings env maxA
    (if courseChoice = "ALL" then settings.courseIds else [courseChoice]) 0
    (startMissingSubmissions cenv settings env courseChoice maxA) rfl
  refine ⟨h1, h2, ?_, h4, ?_⟩
  · intro j
    rw [h3 j]
    constructor
    · rintro ⟨_, hb, he, hc⟩
      exact ⟨by omega, he, by omega⟩
    · rintro ⟨hb, he, hc⟩
      exact ⟨Nat.zero_le _, by omega, he, by omega⟩
  · intro hct
    have h0 := h5 hct
    exact ⟨h0.1, h0.2.1, by simpa using h0.2.2.1, by simpa using h0.2.2.2⟩

/-- Witness for C8: with the budget always exceeded and the user
declining, the run over three courses processes only the first, records
the prompt at position 0, and is marked cancelled. -/
theorem checkpoint_continue_cancel_witness :
    (0 ∈ (startMissingSubmissions cenvCancelW settingsMultiW emptyEnv "ALL" .all).prompts)
    ∧ (startMissingSubmissions cenvCancelW settingsMultiW emptyEnv "ALL" .all).cancelled
        = true
    ∧ (startMissingSubmissions cenvCancelW settingsMultiW emptyEnv "ALL"
        .all).processedCourses = ["1"] := by
  have h := checkpoint_continue_cancel cenvCancelW settingsMultiW emptyEnv .all "ALL"
  refine ⟨(h.2.2.1 0).mpr ⟨by decide, rfl, by decide⟩, by rfl, by rfl⟩

end CanvasHub
